import Mathlib

/-!
Verification of the CSV-to-JSON normalization pipeline of `scripts/build_data.py`
(isotype-explorer). The Python source is shallowly embedded: every definition in
the first part of this file mirrors one function of the source (names are kept);
definitions whose name ends in `_spec` or `_claimed` restate a sentence of the
natural-language specification, to be compared with the source embedding.
Warnings printed by the pipeline are modelled as values of the `Warning` type.
-/

/-! ## Python string primitives (ASCII fragment) -/

/-- Whitespace characters stripped by Python `str.strip()` (ASCII fragment). -/
def isPySpace (c : Char) : Bool :=
  c == ' ' || c == '\t' || c == '\n' || c == '\r' || c == '\x0b' || c == '\x0c'

/-- Drop characters satisfying `p` from the end of a list. -/
def dropWhileEnd (p : Char → Bool) (l : List Char) : List Char :=
  (l.reverse.dropWhile p).reverse

/-- Drop characters satisfying `p` from both ends. -/
def stripWith (p : Char → Bool) (l : List Char) : List Char :=
  dropWhileEnd p (l.dropWhile p)

/-- Python `str.strip()` on a character list. -/
def stripList (l : List Char) : List Char := stripWith isPySpace l

/-- Python `s.strip()`. -/
def pystrip (s : String) : String := String.mk (stripList s.data)

/-- Source `clean_cell`: trimmed string form of a cell (cells are strings here). -/
def clean_cell (s : String) : String := pystrip s

/-- Python `str.lower()` (ASCII fragment). -/
def lowerStr (s : String) : String := String.mk (s.data.map Char.toLower)

/-- Replace every maximal run of characters satisfying `p` by the single
character `rep`; the Boolean records whether the previous character was in a run. -/
def collapseRunsAux (p : Char → Bool) (rep : Char) : Bool → List Char → List Char
  | _, [] => []
  | prevSep, c :: cs =>
    if p c then
      if prevSep then collapseRunsAux p rep true cs
      else rep :: collapseRunsAux p rep true cs
    else c :: collapseRunsAux p rep false cs

/-- Model of `re.sub(r"X+", rep, s)` for a character class `X`. -/
def collapseRuns (p : Char → Bool) (rep : Char) (l : List Char) : List Char :=
  collapseRunsAux p rep false l

def isAsciiLower (c : Char) : Bool := 'a' ≤ c && c ≤ 'z'

/-! ## Field normalizers from the source -/

/-- Separator class of `norm_key`: `[\s\-\/\(\)\.]`. -/
def isNormKeySep (c : Char) : Bool :=
  isPySpace c || c == '-' || c == '/' || c == '(' || c == ')' || c == '.'

/-- Characters kept by `norm_key`: `[a-z0-9_]`. -/
def isKeyChar (c : Char) : Bool := isAsciiLower c || c.isDigit || c == '_'

/-- Source `norm_key`: lowercase, strip BOM, separators to underscores,
drop other characters, collapse and trim underscores. -/
def norm_key (s : String) : String :=
  let l0 := (stripList s.data).map Char.toLower
  let l1 := l0.filter (fun c => c != '\uFEFF')
  let l2 := collapseRuns isNormKeySep '_' l1
  let l3 := l2.filter isKeyChar
  let l4 := collapseRuns (fun c => c == '_') '_' l3
  String.mk (stripWith (fun c => c == '_') l4)

/-- Decimal value of a digit list. -/
def digitsToNat (l : List Char) : Nat := l.foldl (fun n c => 10 * n + (c.toNat - 48)) 0

/-- Python `int(s)` on a string containing only digits and minus signs:
defined exactly when the string is an optional single leading minus followed
by at least one digit. -/
def pyIntOfDigits : List Char → Option Int
  | [] => none
  | c :: ds =>
    if c = '-' then
      if ds ≠ [] ∧ ds.all Char.isDigit then some (-(digitsToNat ds : Int)) else none
    else if (c :: ds).all Char.isDigit then some ((digitsToNat (c :: ds) : Int)) else none

/-- Source `parse_int`: clean, delete every character that is neither a digit
nor a minus sign, then attempt Python `int`; failures give `none`. -/
def parse_int (s : String) : Option Int :=
  let c := clean_cell s
  if c = "" then none
  else
    let kept := c.data.filter (fun ch => ch.isDigit || ch == '-')
    if kept = [] then none else pyIntOfDigits kept

def isSlugChar (c : Char) : Bool := isAsciiLower c || c.isDigit

/-- Model of `s.replace("&", " and ")`. -/
def expandAmp : List Char → List Char
  | [] => []
  | c :: cs => (if c = '&' then [' ', 'a', 'n', 'd', ' '] else [c]) ++ expandAmp cs

/-- Source `slugify`: lowercase, `&` to `and`, runs of non-alphanumerics to a
single hyphen, trim hyphens. -/
def slugify (s : String) : String :=
  let l0 := (stripList s.data).map Char.toLower
  let l1 := expandAmp l0
  let l2 := collapseRuns (fun c => !(isSlugChar c)) '-' l1
  let l3 := collapseRuns (fun c => c == '-') '-' l2
  String.mk (stripWith (fun c => c == '-') l3)

/-- Cleaning pipeline of `normalize_work_id`: strip, lowercase, delete space
characters (only U+0020, as Python `replace(" ", "")` does). -/
def cleanedWorkToken (raw : String) : String :=
  String.mk (((stripList raw.data).map Char.toLower).filter (fun c => c != ' '))

/-- Test for the regex `^w(\d+)$`. -/
def isWDigits : List Char → Bool
  | 'w' :: ds => !ds.isEmpty && ds.all Char.isDigit
  | _ => false

/-- Test for Python `str.isdigit()` (ASCII fragment). -/
def isAllDigits (l : List Char) : Bool := !l.isEmpty && l.all Char.isDigit

/-- Python `zfill(4)` on a digit list. -/
def zpad4 (ds : List Char) : List Char := List.replicate (4 - ds.length) '0' ++ ds

/-- Source `normalize_work_id`. -/
def normalize_work_id (raw : String) : String :=
  let c := cleanedWorkToken raw
  if c = "" then ""
  else if isWDigits c.data then "w" ++ String.mk (zpad4 c.data.tail)
  else if isAllDigits c.data then "w" ++ String.mk (zpad4 c.data)
  else c

/-- Image extensions stripped by `normalize_figure_id` (lowercase forms). -/
def imageExts : List (List Char) :=
  [['p','n','g'], ['w','e','b','p'], ['j','p','g'], ['j','p','e','g'],
   ['t','i','f'], ['t','i','f','f']]

/-- Model of `re.sub(r"\.(png|webp|jpg|jpeg|tif|tiff)$", "", raw, flags=re.I)`. -/
def stripImageExt (l : List Char) : List Char :=
  match imageExts.find? (fun e => List.isSuffixOf ('.' :: e) (l.map Char.toLower)) with
  | some e => l.take (l.length - (e.length + 1))
  | none => l

/-- Source `normalize_figure_id`: clean, strip a trailing image extension
case-insensitively, lowercase. -/
def normalize_figure_id (raw : String) : String :=
  let c := pystrip (clean_cell raw)
  String.mk ((stripImageExt c.data).map Char.toLower)

/-! ## List splitting and name handling -/

/-- Split into maximal runs of characters not satisfying `sep`; the accumulator
holds the current token reversed. Empty tokens never arise. -/
def splitAux (sep : Char → Bool) : List Char → List Char → List (List Char)
  | [], acc => if acc.isEmpty then [] else [acc.reverse]
  | c :: cs, acc =>
    if sep c then
      if acc.isEmpty then splitAux sep cs [] else acc.reverse :: splitAux sep cs []
    else splitAux sep cs (c :: acc)

def splitRuns (sep : Char → Bool) (l : List Char) : List (List Char) :=
  splitAux sep l []

/-- Source `split_csvish`: split on comma or semicolon, trim parts, drop empties. -/
def split_csvish (s : String) : List String :=
  let c := clean_cell s
  if c = "" then []
  else ((((splitRuns (fun ch => ch == ';' || ch == ',') c.data).map stripList).filter
    (fun t => !t.isEmpty)).map String.mk)

/-- Source `split_semicolon_only`: split only on semicolons, trim, drop empties. -/
def split_semicolon_only (s : String) : List String :=
  let c := clean_cell s
  if c = "" then []
  else ((((splitRuns (fun ch => ch == ';') c.data).map stripList).filter
    (fun t => !t.isEmpty)).map String.mk)

/-- Source `flip_last_first`: reorder a name in Last-comma-First form. -/
def flip_last_first (name : String) : String :=
  let n := clean_cell name
  if n.data.contains ',' = false then n
  else
    let last := pystrip (String.mk (n.data.takeWhile (fun c => c != ',')))
    let rest := pystrip (String.mk ((n.data.dropWhile (fun c => c != ',')).drop 1))
    if rest = "" then last else pystrip (rest ++ " " ++ last)

/-! ## Structured figure-id decomposition -/

/-- Matcher for `FIGURE_ID_RE`, the case-insensitive anchored regex
`^(w\d{4})-p(\d{3,4})-f(\d{2})$`; returns the three capture groups. -/
def matchFigId (l : List Char) : Option (List Char × List Char × List Char) :=
  match l with
  | w :: d1 :: d2 :: d3 :: d4 :: '-' :: p :: rest =>
    if (w == 'w' || w == 'W') && d1.isDigit && d2.isDigit && d3.isDigit && d4.isDigit
        && (p == 'p' || p == 'P') then
      let ds := rest.takeWhile Char.isDigit
      let rest2 := rest.dropWhile Char.isDigit
      if ds.length == 3 || ds.length == 4 then
        match rest2 with
        | '-' :: f :: e1 :: e2 :: [] =>
          if (f == 'f' || f == 'F') && e1.isDigit && e2.isDigit then
            some ([w, d1, d2, d3, d4], ds, [e1, e2])
          else none
        | _ => none
      else none
    else none
  | _ => none

/-- Source `parse_figure_components`: on a regex match, normalized work id,
page and figure code; otherwise all absent. -/
def parse_figure_components (figure_id : String) : String × Option Int × Option Int :=
  match matchFigId figure_id.data with
  | some (wp, pg, fc) =>
    (normalize_work_id (String.mk wp), parse_int (String.mk pg), parse_int (String.mk fc))
  | none => ("", none, none)

/-! ## Types, features, colors -/

/-- Source `parse_types`: slugify each split token, drop empties and `combo`. -/
def parse_types (raw : String) : List String :=
  ((split_csvish raw).map slugify).filter (fun t => t ≠ "" ∧ t ≠ "combo")

/-- Source `parse_features_list`: slugify each split token, drop empties. -/
def parse_features_list (raw : String) : List String :=
  ((split_csvish raw).map slugify).filter (fun t => t ≠ "")

/-- Diagnostics printed by the pipeline, one constructor per print site. -/
inductive Warning where
  | unscopedFeatures (figId : String)
  | invalidScopedGroup (figId group : String)
  | scopedTypeNotInTypes (figId typeKey : String)
  | workMismatch (figId workFromId workCol : String)
  | missingScopedType (figId typeKey : String)
  | figureMissingWork (workId : String)
deriving DecidableEq

/-- Python dict assignment on an insertion-ordered association list: an existing
key keeps its position and gets the new value, a new key goes to the end. -/
def dictInsert (k : String) (v : List String) : List (String × List String) → List (String × List String)
  | [] => [(k, v)]
  | (k2, v2) :: rest => if k2 = k then (k, v) :: rest else (k2, v2) :: dictInsert k v rest

/-- Group test `":" in g`. -/
def hasColon (g : String) : Bool := g.data.contains ':'

/-- Python `group.split(":", 1)`: the part before the first colon and the rest. -/
def splitFirstColon (g : String) : String × String :=
  (String.mk (g.data.takeWhile (fun c => c != ':')),
   String.mk ((g.data.dropWhile (fun c => c != ':')).drop 1))

/-- Loop body of `parse_features_by_type`, processing one group. -/
def pfbtStep (types : List String) (figId : String)
    (acc : List (String × List String) × List Warning) (g : String) :
    List (String × List String) × List Warning :=
  if hasColon g = false then (acc.1, acc.2 ++ [Warning.invalidScopedGroup figId g])
  else
    let k := slugify (splitFirstColon g).1
    if k = "" then acc
    else if k ∉ types then (acc.1, acc.2 ++ [Warning.scopedTypeNotInTypes figId k])
    else (dictInsert k (parse_features_list (splitFirstColon g).2) acc.1, acc.2)

/-- Source `parse_features_by_type` with its printed warnings made explicit. -/
def parse_features_by_type (raw : String) (types : List String) (figId : String) :
    List (String × List String) × List Warning :=
  if pystrip raw = "" then ([], [])
  else
    let groups := split_semicolon_only raw
    if groups.any hasColon = false then ([], [Warning.unscopedFeatures figId])
    else groups.foldl (pfbtStep types figId) ([], [])

/-- Source `normalize_color_token`: lowercase, separators to hyphens,
grey to gray, only-black spelling variants to the canonical token. -/
def normalize_color_token (tok : String) : String :=
  let t0 := lowerStr (clean_cell tok)
  let t1 := String.mk (t0.data.map (fun c => if c = '_' ∨ c = ' ' then '-' else c))
  let t2 := if t1 = "grey" then "gray" else t1
  if t2 = "onlyblack" ∨ t2 = "only-black" ∨ t2 = "only" then "only-black" else t2

/-- First-seen-order deduplication with an explicit seen set, mirroring the
`seen`/`out` loop of the source. -/
def dedupFirstAux (seen : List String) : List String → List String
  | [] => []
  | x :: xs => if x ∈ seen then dedupFirstAux seen xs else x :: dedupFirstAux (x :: seen) xs

/-- Source `parse_colors`: colors list (excluding black) and the onlyBlack flag. -/
def parse_colors (raw : String) : List String × Bool :=
  let toks := (split_csvish raw).map normalize_color_token
  if "only-black" ∈ toks then ([], true)
  else
    let toksWoBlack := toks.filter (fun t => t ≠ "" ∧ t ≠ "black")
    if toksWoBlack = [] ∧ toks ≠ [] then ([], true)
    else (dedupFirstAux [] toksWoBlack, false)

/-! ## Rows and header lookup -/

/-- A CSV row after `read_csv`: an insertion-ordered mapping from normalized
header names to cleaned cell strings. -/
abbrev Row := List (String × String)

/-- Python dict key lookup on a row. -/
def rowLookup : Row → String → Option String
  | [], _ => none
  | (k, v) :: rest, key => if k = key then some v else rowLookup rest key

/-- Source `get_first`: first non-empty cleaned value among the aliased columns. -/
def get_first (r : Row) : List String → String → String
  | [], dflt => dflt
  | k :: ks, dflt =>
    match rowLookup r (norm_key k) with
    | some v => if clean_cell v = "" then get_first r ks dflt else clean_cell v
    | none => get_first r ks dflt

/-- Python `x or None` on a string already produced by `get_first`. -/
def noneIfEmpty (s : String) : Option String := if s = "" then none else some s

/-! ## Work records and the Work Builder -/

/-- One record of `works.json`, fields in source order. -/
structure WorkRec where
  workId : String
  year : Option Int
  title : String
  series : Option String
  language : Option String
  authors : List String
  informationDesigners : List String
  publisher : Option String
  publisherCity : Option String
  heightCm : Option Int
  oclcNumber : Option String
  isbn : Option String
  scanSource : Option String
  firstEdition : Option String
deriving DecidableEq

/-- Resolved, normalized work id of a works row. -/
def workIdOfRow (r : Row) : String :=
  normalize_work_id (get_first r ["work_id", "work", "workid", "work key", "work_key"] "")

/-- Body of the `build_works` loop for one row: `none` models `continue`. -/
def buildWorkRow (r : Row) : Option WorkRec :=
  if workIdOfRow r = "" ∨ get_first r ["title"] "" = "" then none
  else some {
    workId := workIdOfRow r
    year := parse_int (get_first r ["pub year", "year", "publication year", "pub_year"] "")
    title := get_first r ["title"] ""
    series := noneIfEmpty (get_first r ["series"] "")
    language := noneIfEmpty (get_first r ["language"] "")
    authors := (split_semicolon_only (get_first r ["author(s)", "authors", "author"] "")).map
      flip_last_first
    informationDesigners := split_semicolon_only
      (get_first r ["information designers", "information_designers", "designers"] "")
    publisher := noneIfEmpty (get_first r ["publisher"] "")
    publisherCity := noneIfEmpty (get_first r ["publisher city", "publisher_city", "city"] "")
    heightCm := parse_int (get_first r ["height (cm)", "height_cm", "height"] "")
    oclcNumber := noneIfEmpty (get_first r ["oclc_number", "oclc"] "")
    isbn := noneIfEmpty (get_first r ["isbn"] "")
    scanSource := noneIfEmpty (get_first r ["scan_source"] "")
    firstEdition := noneIfEmpty (get_first r ["1st ed.", "1st_ed", "first_edition"] "") }

/-- Lexicographic comparison of character lists by code point, the order Python
uses to compare the id strings in `sort(key=...)`. -/
def charListLe : List Char → List Char → Bool
  | [], _ => true
  | _ :: _, [] => false
  | a :: as, b :: bs => if a < b then true else if b < a then false else charListLe as bs

/-- Lexicographic string comparison by code point. -/
def strLeB (a b : String) : Bool := charListLe a.data b.data

/-- Sort key order of `works.sort(key=...)`. -/
def workLe (a b : WorkRec) : Prop := strLeB a.workId b.workId = true

instance : DecidableRel workLe := fun a b =>
  inferInstanceAs (Decidable (strLeB a.workId b.workId = true))

/-- Source `build_works`: keep rows with non-empty id and title, sort by workId. -/
def build_works (rows : List Row) : List WorkRec :=
  List.insertionSort workLe (rows.filterMap buildWorkRow)

/-! ## Figure records and the Figure Builder -/

/-- One record of `figures.json`, fields in source order. -/
structure FigRec where
  id : String
  workId : Option String
  page : Option Int
  figureCode : Option Int
  thumb : String
  view : String
  title : Option String
  types : List String
  typesFlat : List String
  isCombo : Bool
  featuresByType : List (String × List String)
  featuresFlat : List String
  colors : List String
  onlyBlack : Bool
  themes : List String
  aiDescription : Option String
  ocrText : Option String
  workYear : Option Int
  typeTokens : List String
deriving DecidableEq

/-- The id-to-record lookup built by `main` from the Work list. -/
abbrev WorksById := List (String × WorkRec)

/-- Python `works_by_id.get(work_id)`. -/
def lookupWork : WorksById → String → Option WorkRec
  | [], _ => none
  | (k, w) :: rest, key => if k = key then some w else lookupWork rest key

/-- Python `features_by_type.get(t, [])`. -/
def lookupFeat : List (String × List String) → String → List String
  | [], _ => []
  | (k, v) :: rest, key => if k = key then v else lookupFeat rest key

/-- Resolved, normalized figure id of a figures row. -/
def figIdOf (r : Row) : String :=
  normalize_figure_id (get_first r ["figure_id", "id", "figure", "filename"] "")

/-- Authoritative work id: decomposed value first, then the CSV column, else absent. -/
def figWorkIdOf (r : Row) : Option String :=
  let wfi := (parse_figure_components (figIdOf r)).1
  let wc := normalize_work_id (get_first r ["work_id", "work", "workid"] "")
  if wfi ≠ "" then some wfi else if wc ≠ "" then some wc else none

/-- Page: decomposed value preferred, else the CSV column. -/
def figPageOf (r : Row) : Option Int :=
  match (parse_figure_components (figIdOf r)).2.1 with
  | some p => some p
  | none => parse_int (get_first r ["page", "page_number"] "")

/-- Figure code: decomposed value preferred, else the CSV column. -/
def figFcodeOf (r : Row) : Option Int :=
  match (parse_figure_components (figIdOf r)).2.2 with
  | some f => some f
  | none => parse_int (get_first r ["figure_code", "fig_code", "f"] "")

/-- Resolved raw types cell (new header with older fallbacks). -/
def figTypesRaw (r : Row) : String :=
  get_first r ["types", "figure_type", "basic chart", "chart_type", "chart type", "type"] ""

/-- Resolved raw features cell (new header with older fallbacks). -/
def figFeaturesRaw (r : Row) : String :=
  get_first r ["features", "chart facets", "facets", "chart_types", "chart types"] ""

/-- Normalized type list of a figures row. -/
def figTypesOf (r : Row) : List String := parse_types (figTypesRaw r)

/-- `featuresByType` of a figures row: a single type takes the whole feature
list; several types require scoped parsing; no type means no features. -/
def figFBT (r : Row) : List (String × List String) :=
  match figTypesOf r with
  | [] => []
  | [t] => [(t, parse_features_list (figFeaturesRaw r))]
  | ts => (parse_features_by_type (figFeaturesRaw r) ts (figIdOf r)).1

/-- The set update `seen.add` of the flattening loop: grow only on new elements. -/
def pushSeen (seen : List String) (l : List String) : List String :=
  l.foldl (fun s x => if x ∈ s then s else x :: s) seen

/-- The `features_flat` loop of `build_figures`: walk `types` in order, append
each type's features, skipping tokens already seen. -/
def featuresFlatLoop (fbt : List (String × List String)) (seen : List String) :
    List String → List String
  | [] => []
  | t :: ts =>
    dedupFirstAux seen (lookupFeat fbt t) ++
      featuresFlatLoop fbt (pushSeen seen (lookupFeat fbt t)) ts

/-- The Figure record appended for one surviving row of `build_figures`. -/
def mkFigRec (r : Row) (worksById : WorksById) : FigRec :=
  {
    id := figIdOf r
    workId := figWorkIdOf r
    page := figPageOf r
    figureCode := figFcodeOf r
    thumb := "/webp/thumbs/" ++ figIdOf r ++ "_h0500.webp"
    view := "/webp/views/" ++ figIdOf r ++ "_h2400.webp"
    title := noneIfEmpty (get_first r ["figure_title", "title"] "")
    types := figTypesOf r
    typesFlat := figTypesOf r
    isCombo := decide (1 < (figTypesOf r).length)
    featuresByType := figFBT r
    featuresFlat := featuresFlatLoop (figFBT r) [] (figTypesOf r)
    colors := (parse_colors (get_first r ["colors", "color", "palette"] "")).1
    onlyBlack := (parse_colors (get_first r ["colors", "color", "palette"] "")).2
    themes := (split_csvish (get_first r ["themes", "topic themes", "topic_themes"] "")).map
      clean_cell
    aiDescription := noneIfEmpty (get_first r ["ai_description", "ai description"] "")
    ocrText := noneIfEmpty (get_first r ["ocr_text", "ocr", "figure_text", "figure text"] "")
    workYear := (figWorkIdOf r).bind (fun w => (lookupWork worksById w).bind (fun wk => wk.year))
    typeTokens := figTypesOf r }

/-- Body of the `build_figures` loop for one row: `none` models `continue`. -/
def buildFigureRow (r : Row) (worksById : WorksById) : Option FigRec :=
  if figIdOf r = "" then none else some (mkFigRec r worksById)

/-- Sort key order of `figures.sort(key=...)`. -/
def figLe (a b : FigRec) : Prop := strLeB a.id b.id = true

instance : DecidableRel figLe := fun a b =>
  inferInstanceAs (Decidable (strLeB a.id b.id = true))

/-- Source `build_figures`: keep rows with a non-empty id, sort by figure id. -/
def build_figures (rows : List Row) (worksById : WorksById) : List FigRec :=
  List.insertionSort figLe (rows.filterMap (fun r => buildFigureRow r worksById))

/-! ## Validator of main: figures referencing unknown works -/

/-- The `missing_works` computation of `main`: sorted distinct referenced
work ids absent from the lookup. -/
def missing_work_ids (figures : List FigRec) (worksById : WorksById) : List String :=
  List.insertionSort (fun a b : String => strLeB a b = true)
    (dedupFirstAux []
      ((figures.filterMap (fun f => f.workId)).filter
        (fun w => (lookupWork worksById w).isNone)))

/-- The per-id warning lines printed by `main` for missing works. -/
def missing_work_warnings (figures : List FigRec) (worksById : WorksById) : List Warning :=
  (missing_work_ids figures worksById).map Warning.figureMissingWork

/-! ## Definitions taken from the specification text (for refinement claims) -/

/-- Spec reading of integer parsing: keep digits and minus signs; the remainder
parses exactly when it is an optional leading minus followed by digits. -/
def parse_int_spec (s : String) : Option Int :=
  let kept := (pystrip s).data.filter (fun ch => ch.isDigit || ch == '-')
  if kept.head? = some '-' then
    if kept.tail ≠ [] ∧ kept.tail.all Char.isDigit then some (-(digitsToNat kept.tail : Int))
    else none
  else if kept ≠ [] ∧ kept.all Char.isDigit then some ((digitsToNat kept : Int)) else none

/-- Digits of a cleaned work token of the form `w<digits>` or pure digits. -/
def workDigits (l : List Char) : Option (List Char) :=
  if isWDigits l then some l.tail
  else if isAllDigits l then some l
  else none

/-- Spec reading of work-id normalization: clean the token; re-render a
`w<digits>`-or-digits form zero-padded to width 4, else keep the cleaned form. -/
def normalize_work_id_spec (raw : String) : String :=
  let c := cleanedWorkToken raw
  match workDigits c.data with
  | some ds => "w" ++ String.mk (zpad4 ds)
  | none => c

/-- First-occurrence-keeping deduplication, written by removal of later
duplicates (the form used in the specification statements). -/
def dedupFirst : List String → List String
  | [] => []
  | x :: xs => x :: dedupFirst (xs.filter (fun y => y ≠ x))
termination_by l => l.length
decreasing_by
  simp only [List.length_cons]
  exact Nat.lt_succ_of_le (List.length_filter_le _ _)

/-- Spec reading of color-list parsing, following the sentence of §4.1 of the
specification word for word. -/
def parse_colors_spec (raw : String) : List String × Bool :=
  let toks := (split_csvish raw).map normalize_color_token
  if "only-black" ∈ toks then ([], true)
  else
    let rem := toks.filter (fun t => t ≠ "black")
    if rem = [] ∧ toks ≠ [] then ([], true)
    else (dedupFirst rem, false)

/-- Classification of one scoped-feature group, per the amended spec sentence. -/
inductive GroupAction where
  | invalid (g : String)
  | silent
  | unknownType (k : String)
  | store (k : String) (feats : List String)

/-- Decide what a scoped-feature group contributes. -/
def classifyGroup (types : List String) (g : String) : GroupAction :=
  if hasColon g = false then GroupAction.invalid g
  else
    let k := slugify (splitFirstColon g).1
    if k = "" then GroupAction.silent
    else if k ∉ types then GroupAction.unknownType k
    else GroupAction.store k (parse_features_list (splitFirstColon g).2)

/-- Apply one group classification to the accumulated map and warnings. -/
def applyAction (figId : String) (acc : List (String × List String) × List Warning) :
    GroupAction → List (String × List String) × List Warning
  | GroupAction.invalid g => (acc.1, acc.2 ++ [Warning.invalidScopedGroup figId g])
  | GroupAction.silent => acc
  | GroupAction.unknownType k => (acc.1, acc.2 ++ [Warning.scopedTypeNotInTypes figId k])
  | GroupAction.store k feats => (dictInsert k feats acc.1, acc.2)

/-- Spec reading of scoped-feature parsing (amended): blank input gives an empty
map silently; input whose groups all lack a colon gives one warning; otherwise
each group acts by its classification. -/
def parse_features_by_type_spec (raw : String) (types : List String) (figId : String) :
    List (String × List String) × List Warning :=
  if pystrip raw = "" then ([], [])
  else
    let groups := split_semicolon_only raw
    if groups.all (fun g => hasColon g = false) then ([], [Warning.unscopedFeatures figId])
    else (groups.map (classifyGroup types)).foldl (applyAction figId) ([], [])

/-- Concatenation of the per-type feature lists in type order (spec form). -/
def concatMap (f : String → List String) : List String → List String
  | [] => []
  | t :: ts => f t ++ concatMap f ts

/-! ## Concrete inputs used by counterexamples and witnesses -/

def rowC1a : Row := [("work_id", "1"), ("title", "A")]

def rowC1b : Row := [("work_id", "w0001"), ("title", "B")]

def rowC1w : Row := [("work_id", "2"), ("title", "C")]

def rowC2 : Row := [("figure_id", "f1"), ("types", "bar, bar")]

def figC2 : FigRec :=
  { id := "f1", workId := none, page := none, figureCode := none,
    thumb := "/webp/thumbs/f1_h0500.webp", view := "/webp/views/f1_h2400.webp",
    title := none, types := ["bar", "bar"], typesFlat := ["bar", "bar"], isCombo := true,
    featuresByType := [], featuresFlat := [], colors := [], onlyBlack := false,
    themes := [], aiDescription := none, ocrText := none, workYear := none,
    typeTokens := ["bar", "bar"] }

def rowC2w : Row := [("figure_id", "f2"), ("types", "Bar")]

def figC2w : FigRec :=
  { id := "f2", workId := none, page := none, figureCode := none,
    thumb := "/webp/thumbs/f2_h0500.webp", view := "/webp/views/f2_h2400.webp",
    title := none, types := ["bar"], typesFlat := ["bar"], isCombo := false,
    featuresByType := [("bar", [])], featuresFlat := [], colors := [], onlyBlack := false,
    themes := [], aiDescription := none, ocrText := none, workYear := none,
    typeTokens := ["bar"] }

def rowC6 : Row := [("figure_id", "w0001-p001-f01")]

def figC6 : FigRec :=
  { id := "w0001-p001-f01", workId := some "w0001", page := some 1, figureCode := some 1,
    thumb := "/webp/thumbs/w0001-p001-f01_h0500.webp",
    view := "/webp/views/w0001-p001-f01_h2400.webp",
    title := none, types := [], typesFlat := [], isCombo := false,
    featuresByType := [], featuresFlat := [], colors := [], onlyBlack := false,
    themes := [], aiDescription := none, ocrText := none, workYear := none,
    typeTokens := [] }

def rowC8 : Row :=
  [("figure_id", "x8"), ("types", "bar; line"),
   ("features", "bar: stacked; line: stacked, trend")]

def figC8 : FigRec :=
  { id := "x8", workId := none, page := none, figureCode := none,
    thumb := "/webp/thumbs/x8_h0500.webp", view := "/webp/views/x8_h2400.webp",
    title := none, types := ["bar", "line"], typesFlat := ["bar", "line"], isCombo := true,
    featuresByType := [("bar", ["stacked"]), ("line", ["stacked", "trend"])],
    featuresFlat := ["stacked", "trend"], colors := [], onlyBlack := false,
    themes := [], aiDescription := none, ocrText := none, workYear := none,
    typeTokens := ["bar", "line"] }

def rowC10 : Row := [("figure_id", "x9"), ("types", "map")]

def figC10 : FigRec :=
  { id := "x9", workId := none, page := none, figureCode := none,
    thumb := "/webp/thumbs/x9_h0500.webp", view := "/webp/views/x9_h2400.webp",
    title := none, types := ["map"], typesFlat := ["map"], isCombo := false,
    featuresByType := [("map", [])], featuresFlat := [], colors := [], onlyBlack := false,
    themes := [], aiDescription := none, ocrText := none, workYear := none,
    typeTokens := ["map"] }

/-! ## General lemmas about the embedded operations -/

theorem charListLe_total : ∀ as bs, charListLe as bs = true ∨ charListLe bs as = true := by
  intro as
  induction as with
  | nil => intro bs; left; rfl
  | cons a as ih =>
    intro bs
    cases bs with
    | nil => right; rfl
    | cons b bs =>
      rcases lt_trichotomy a b with h | h | h
      · left; simp [charListLe, h]
      · subst h
        rcases ih bs with h2 | h2
        · left; simp [charListLe, lt_irrefl, h2]
        · right; simp [charListLe, lt_irrefl, h2]
      · right; simp [charListLe, h]

theorem charListLe_trans :
    ∀ as bs cs, charListLe as bs = true → charListLe bs cs = true → charListLe as cs = true := by
  intro as
  induction as with
  | nil => intro bs cs _ _; rfl
  | cons a as ih =>
    intro bs cs hab hbc
    cases bs with
    | nil => simp [charListLe] at hab
    | cons b bs =>
      cases cs with
      | nil => simp [charListLe] at hbc
      | cons c cs =>
        rcases lt_trichotomy a b with h1 | h1 | h1
        · rcases lt_trichotomy b c with h2 | h2 | h2
          · simp [charListLe, lt_trans h1 h2]
          · subst h2; simp [charListLe, h1]
          · simp [charListLe, h2, not_lt_of_gt h2, lt_asymm h2] at hbc
        · subst h1
          rcases lt_trichotomy a c with h2 | h2 | h2
          · simp [charListLe, h2]
          · subst h2
            simp only [charListLe, lt_irrefl, if_false] at hab hbc ⊢
            exact ih _ _ hab hbc
          · simp [charListLe, lt_asymm h2, h2] at hbc
        · simp [charListLe, lt_asymm h1, h1] at hab

theorem mem_dedupFirstAux {x : String} :
    ∀ (l : List String) (seen : List String),
      x ∈ dedupFirstAux seen l ↔ (x ∈ l ∧ x ∉ seen) := by
  intro l
  induction l with
  | nil => intro seen; simp [dedupFirstAux]
  | cons y ys ih =>
    intro seen
    by_cases hy : y ∈ seen
    · rw [dedupFirstAux, if_pos hy, ih]
      constructor
      · rintro ⟨h1, h2⟩; exact ⟨List.mem_cons_of_mem _ h1, h2⟩
      · rintro ⟨h1, h2⟩
        rcases List.mem_cons.mp h1 with rfl | h1
        · exact absurd hy h2
        · exact ⟨h1, h2⟩
    · rw [dedupFirstAux, if_neg hy, List.mem_cons, ih]
      constructor
      · rintro (rfl | ⟨h1, h2⟩)
        · exact ⟨List.mem_cons_self _ _, hy⟩
        · refine ⟨List.mem_cons_of_mem _ h1, fun hc => h2 (List.mem_cons_of_mem _ hc)⟩
      · rintro ⟨h1, h2⟩
        by_cases hxy : x = y
        · exact Or.inl hxy
        · rcases List.mem_cons.mp h1 with rfl | h1
          · exact absurd rfl hxy
          · refine Or.inr ⟨h1, fun hc => ?_⟩
            rcases List.mem_cons.mp hc with rfl | hc
            · exact hxy rfl
            · exact h2 hc

theorem nodup_dedupFirstAux : ∀ (l : List String) (seen : List String),
    (dedupFirstAux seen l).Nodup := by
  intro l
  induction l with
  | nil => intro seen; simp [dedupFirstAux]
  | cons y ys ih =>
    intro seen
    by_cases hy : y ∈ seen
    · rw [dedupFirstAux, if_pos hy]; exact ih seen
    · rw [dedupFirstAux, if_neg hy]
      refine List.nodup_cons.mpr ⟨fun hc => ?_, ih _⟩
      exact ((mem_dedupFirstAux ys _).mp hc).2 (List.mem_cons_self _ _)

theorem dedupFirstAux_eq_filter :
    ∀ (l : List String) (seen : List String),
      dedupFirstAux seen l = dedupFirst (l.filter (fun x => x ∉ seen)) := by
  intro l
  induction l with
  | nil => intro seen; simp [dedupFirstAux, dedupFirst]
  | cons x xs ih =>
    intro seen
    by_cases hx : x ∈ seen
    · rw [dedupFirstAux, if_pos hx, ih]
      rw [List.filter_cons_of_neg (by simp [hx])]
    · rw [dedupFirstAux, if_neg hx, ih]
      rw [List.filter_cons_of_pos (by simp [hx])]
      rw [dedupFirst]
      congr 1
      rw [List.filter_filter]
      congr 1
      apply List.filter_congr
      intro y _
      by_cases h1 : y = x <;> by_cases h2 : y ∈ seen <;>
        simp [h1, h2, List.mem_cons]

theorem dedupFirstAux_nil (l : List String) : dedupFirstAux [] l = dedupFirst l := by
  rw [dedupFirstAux_eq_filter]
  congr 1
  apply List.filter_eq_self.mpr
  intro a _
  simp

theorem pushSeen_cons (seen : List String) (x : String) (l : List String) :
    pushSeen seen (x :: l) = pushSeen (if x ∈ seen then seen else x :: seen) l := by
  rfl

theorem dedupFirstAux_append :
    ∀ (xs ys seen : List String),
      dedupFirstAux seen (xs ++ ys) =
        dedupFirstAux seen xs ++ dedupFirstAux (pushSeen seen xs) ys := by
  intro xs
  induction xs with
  | nil => intro ys seen; rfl
  | cons x xs ih =>
    intro ys seen
    by_cases hx : x ∈ seen
    · rw [List.cons_append, dedupFirstAux, if_pos hx, dedupFirstAux, if_pos hx,
        pushSeen_cons, if_pos hx, ih]
    · rw [List.cons_append, dedupFirstAux, if_neg hx, dedupFirstAux, if_neg hx,
        pushSeen_cons, if_neg hx, ih, List.cons_append]

theorem featuresFlatLoop_eq (fbt : List (String × List String)) :
    ∀ (ts : List String) (seen : List String),
      featuresFlatLoop fbt seen ts =
        dedupFirstAux seen (concatMap (fun t => lookupFeat fbt t) ts) := by
  intro ts
  induction ts with
  | nil => intro seen; rfl
  | cons t ts ih =>
    intro seen
    rw [featuresFlatLoop, concatMap, dedupFirstAux_append, ih]

/-! ## Shape of records in the builder outputs -/

theorem mem_build_works {rows : List Row} {w : WorkRec} (h : w ∈ build_works rows) :
    ∃ r ∈ rows, buildWorkRow r = some w := by
  unfold build_works at h
  rw [List.mem_insertionSort] at h
  exact List.mem_filterMap.mp h

theorem mem_build_figures {rows : List Row} {wbid : WorksById} {fig : FigRec}
    (h : fig ∈ build_figures rows wbid) :
    ∃ r ∈ rows, buildFigureRow r wbid = some fig := by
  unfold build_figures at h
  rw [List.mem_insertionSort] at h
  exact List.mem_filterMap.mp h

theorem buildFigureRow_fields {r : Row} {wbid : WorksById} {fig : FigRec}
    (h : buildFigureRow r wbid = some fig) : fig = mkFigRec r wbid := by
  unfold buildFigureRow at h
  by_cases hid : figIdOf r = ""
  · rw [if_pos hid] at h
    exact absurd h (by simp)
  · rw [if_neg hid, Option.some.injEq] at h
    exact h.symm

theorem mkFigRec_types (r : Row) (wbid : WorksById) : (mkFigRec r wbid).types = figTypesOf r := by
  simp only [mkFigRec]

theorem mkFigRec_typesFlat (r : Row) (wbid : WorksById) :
    (mkFigRec r wbid).typesFlat = figTypesOf r := by
  simp only [mkFigRec]

theorem mkFigRec_typeTokens (r : Row) (wbid : WorksById) :
    (mkFigRec r wbid).typeTokens = figTypesOf r := by
  simp only [mkFigRec]

theorem mkFigRec_featuresByType (r : Row) (wbid : WorksById) :
    (mkFigRec r wbid).featuresByType = figFBT r := by
  simp only [mkFigRec]

theorem mkFigRec_featuresFlat (r : Row) (wbid : WorksById) :
    (mkFigRec r wbid).featuresFlat = featuresFlatLoop (figFBT r) [] (figTypesOf r) := by
  simp only [mkFigRec]

theorem mkFigRec_workId (r : Row) (wbid : WorksById) :
    (mkFigRec r wbid).workId = figWorkIdOf r := by
  simp only [mkFigRec]

theorem mkFigRec_workYear (r : Row) (wbid : WorksById) :
    (mkFigRec r wbid).workYear =
      (figWorkIdOf r).bind (fun w => (lookupWork wbid w).bind (fun wk => wk.year)) := by
  simp only [mkFigRec]

/-! ## Claim theorems -/

/-- Claim C1, counterexample: two rows with the same normalized work id both
survive `build_works`, so the output workId values are not pairwise distinct. -/
theorem c1_counterexample :
    (build_works [rowC1a, rowC1b]).map (fun w => w.workId) = ["w0001", "w0001"] ∧
    ¬ ((build_works [rowC1a, rowC1b]).map (fun w => w.workId)).Nodup := by
  exact ⟨by decide, by decide⟩

/-- Claim C1 (amended): `build_works` does not deduplicate by id; its workId
column is a permutation of the normalized ids of the surviving rows, so it is
duplicate-free exactly when those are. -/
theorem c1_work_ids_amended (rows : List Row) :
    ((build_works rows).map (fun w => w.workId)).Perm
      (((rows.filterMap buildWorkRow).map (fun w => w.workId))) ∧
    (((build_works rows).map (fun w => w.workId)).Nodup ↔
      ((rows.filterMap buildWorkRow).map (fun w => w.workId)).Nodup) := by
  have hperm :=
    (List.perm_insertionSort workLe (rows.filterMap buildWorkRow)).map (fun w => w.workId)
  exact ⟨hperm, hperm.nodup_iff⟩

/-- Claim C3, counterexample: on input with a trailing minus sign the code
keeps the minus (its deletion regex spares every minus, not only a leading
one), Python `int` then fails, and the result is `none`, although digits
remain after the stripping the claim describes. -/
theorem c3_counterexample :
    parse_int "5-" = none ∧ (pystrip "5-").data.filter Char.isDigit = ['5'] := by
  exact ⟨by decide, by decide⟩

/-- Claim C3 (amended): `parse_int` deletes every character that is neither a
digit nor a minus sign (wherever the minus occurs); it returns a value exactly
when the remainder is an optional single leading minus followed by digits, and
it is total (never raises). -/
theorem c3_parse_int_amended : ∀ s, parse_int s = parse_int_spec s := by
  intro s
  unfold parse_int parse_int_spec clean_cell
  by_cases h0 : pystrip s = ""
  · rw [h0]
    have hdata : ("" : String).data = [] := rfl
    simp [hdata]
  · rw [if_neg h0]
    rcases hk : (pystrip s).data.filter (fun ch => ch.isDigit || ch == '-') with _ | ⟨c, ds⟩
    · rw [hk]
      simp
    · rw [hk]
      by_cases hc : c = '-'
      · subst hc
        simp [pyIntOfDigits]
      · simp [pyIntOfDigits, hc]

/-- Claim C7, counterexample: only the space character is removed inside the
token, so a token with an inner tab, whose whitespace-free lowercase form is
`w1`, is not re-rendered as `w0001` but passed through; and pass-through
returns the cleaned lowercased form, not the original token. -/
theorem c7_counterexample :
    normalize_work_id "w\t1" = "w\t1" ∧
    String.mk ((lowerStr "w\t1").data.filter (fun c => !(isPySpace c))) = "w1" ∧
    isWDigits ("w1".data) = true ∧
    normalize_work_id "AB " = "ab" := by
  exact ⟨by decide, by decide, by decide, by decide⟩

/-- Claim C7 (amended): the four quoted raw forms normalize to `w0001`; in
general the token is trimmed, has its internal space characters (U+0020 only)
removed and is lowercased, then a `w<digits>` or pure-digits form is
re-rendered as `w` plus the digits zero-padded to width 4, and any other token
is returned in that cleaned lowercased form. -/
theorem c7_normalize_work_id_amended :
    normalize_work_id "1" = "w0001" ∧ normalize_work_id "w1" = "w0001" ∧
    normalize_work_id "w0001" = "w0001" ∧ normalize_work_id "W001" = "w0001" ∧
    ∀ raw, normalize_work_id raw = normalize_work_id_spec raw := by
  refine ⟨by decide, by decide, by decide, by decide, ?_⟩
  intro raw
  unfold normalize_work_id normalize_work_id_spec workDigits
  by_cases h0 : cleanedWorkToken raw = ""
  · rw [h0]
    have hdata : ("" : String).data = [] := rfl
    simp [hdata, isWDigits, isAllDigits]
  · rw [if_neg h0]
    by_cases hw : isWDigits (cleanedWorkToken raw).data = true
    · simp [hw]
    · rw [Bool.not_eq_true] at hw
      by_cases hd : isAllDigits (cleanedWorkToken raw).data = true
      · simp [hw, hd]
      · rw [Bool.not_eq_true] at hd
        simp [hw, hd]

/-- Claim C9: both outputs are sorted ascending by their id key in the
code-point lexicographic order Python uses for strings, for every input. -/
theorem c9_outputs_sorted (wrows frows : List Row) (worksById : WorksById) :
    List.Pairwise (fun a b : WorkRec => strLeB a.workId b.workId = true) (build_works wrows) ∧
    List.Pairwise (fun a b : FigRec => strLeB a.id b.id = true)
      (build_figures frows worksById) := by
  constructor
  · haveI : IsTotal WorkRec workLe :=
      ⟨fun a b => charListLe_total a.workId.data b.workId.data⟩
    haveI : IsTrans WorkRec workLe :=
      ⟨fun a b c hab hbc => charListLe_trans a.workId.data b.workId.data c.workId.data hab hbc⟩
    exact List.sorted_insertionSort workLe (wrows.filterMap buildWorkRow)
  · haveI : IsTotal FigRec figLe :=
      ⟨fun a b => charListLe_total a.id.data b.id.data⟩
    haveI : IsTrans FigRec figLe :=
      ⟨fun a b c hab hbc => charListLe_trans a.id.data b.id.data c.id.data hab hbc⟩
    exact List.sorted_insertionSort figLe (frows.filterMap (fun r => buildFigureRow r worksById))

/-- Claim C10: every figure record carries the extra schema fields `typesFlat`
and `typeTokens`, both equal to its `types` list. -/
theorem c10_typesFlat_typeTokens (rows : List Row) (wbid : WorksById) (fig : FigRec)
    (h : fig ∈ build_figures rows wbid) :
    fig.typesFlat = fig.types ∧ fig.typeTokens = fig.types := by
  obtain ⟨r, _, hb⟩ := mem_build_figures h
  rw [buildFigureRow_fields hb, mkFigRec_types, mkFigRec_typesFlat, mkFigRec_typeTokens]
  exact ⟨rfl, rfl⟩

/-- Claim C10, witness at a concrete row. -/
theorem c10_witness :
    figC10 ∈ build_figures [rowC10] [] ∧
    (figC10.typesFlat = figC10.types ∧ figC10.typeTokens = figC10.types) :=
  ⟨by decide, c10_typesFlat_typeTokens [rowC10] [] figC10 (by decide)⟩

/-- Claim C5, counterexample: a group whose left side slugifies to the empty
key is dropped silently, although the empty key is not in the declared type
list, so no warning is emitted where the claim requires one. -/
theorem c5_counterexample :
    slugify "!!!" = "" ∧ "" ∉ ["bar"] ∧
    parse_features_by_type "!!!: a" ["bar"] "f1" = ([], []) := by
  exact ⟨by decide, by decide, by decide⟩

/-- Claim C5 (amended): a blank raw string gives an empty map with no warning;
when no group has a colon, one warning and an empty map; a group without a
colon warns and is skipped; a group whose slugified key is empty is skipped
silently; a group whose key is not declared warns and is skipped; every other
group stores its parsed feature list under its key. -/
theorem c5_scoped_features_amended (raw : String) (types : List String) (figId : String) :
    parse_features_by_type raw types figId = parse_features_by_type_spec raw types figId := by
  unfold parse_features_by_type parse_features_by_type_spec
  by_cases h0 : pystrip raw = ""
  · rw [if_pos h0, if_pos h0]
  · rw [if_neg h0, if_neg h0]
    have hstep : ∀ (acc : List (String × List String) × List Warning) (g : String),
        pfbtStep types figId acc g = applyAction figId acc (classifyGroup types g) := by
      intro acc g
      by_cases hc : hasColon g = false
      · simp [pfbtStep, classifyGroup, applyAction, hc]
      · by_cases hk : slugify (splitFirstColon g).1 = ""
        · simp [pfbtStep, classifyGroup, applyAction, hc, hk]
        · by_cases hmem : slugify (splitFirstColon g).1 ∈ types
          · simp [pfbtStep, classifyGroup, applyAction, hc, hk, hmem]
          · simp [pfbtStep, classifyGroup, applyAction, hc, hk, hmem]
    by_cases h1 : (split_semicolon_only raw).any hasColon = false
    · have h2 : (split_semicolon_only raw).all (fun g => hasColon g = false) = true := by
        rw [List.all_eq_true]
        intro g hg
        simpa using List.any_eq_false.mp h1 g hg
      rw [if_pos h1, if_pos h2]
    · have h2 : ¬ (split_semicolon_only raw).all (fun g => hasColon g = false) = true := by
        intro hall
        apply h1
        rw [List.any_eq_false]
        intro g hg
        simpa using List.all_eq_true.mp hall g hg
      rw [if_neg h1, if_neg h2, List.foldl_map]
      have hfun : (fun acc g => applyAction figId acc (classifyGroup types g)) =
          pfbtStep types figId := by
        funext acc g
        rw [hstep]
      rw [hfun]

/-- Claim C2, counterexample: a raw types cell `bar, bar` produces a figure
whose types list contains the token `bar` twice. -/
theorem c2_counterexample :
    figC2 ∈ build_figures [rowC2] [] ∧ ¬ figC2.types.Nodup := by
  exact ⟨by decide, by decide⟩

/-- Claim C2 (amended): every token of a figure record types list is the slug
of some raw token, is non-empty and is not the literal `combo`; the list is
not de-duplicated. -/
theorem c2_types_tokens_amended (rows : List Row) (wbid : WorksById) (fig : FigRec)
    (h : fig ∈ build_figures rows wbid) :
    ∀ t ∈ fig.types, t ≠ "" ∧ t ≠ "combo" ∧ ∃ rawTok, t = slugify rawTok := by
  obtain ⟨r, _, hb⟩ := mem_build_figures h
  rw [buildFigureRow_fields hb, mkFigRec_types]
  intro t htmem
  unfold figTypesOf parse_types at htmem
  simp only [List.mem_filter, List.mem_map, decide_eq_true_eq] at htmem
  obtain ⟨⟨tok, _, htok⟩, hcond⟩ := htmem
  exact ⟨hcond.1, hcond.2, tok, htok.symm⟩

/-- Claim C2 (amended), witness at a concrete row. -/
theorem c2_witness :
    figC2w ∈ build_figures [rowC2w] [] ∧ "bar" ∈ figC2w.types ∧
    ("bar" ≠ "" ∧ "bar" ≠ "combo" ∧ ∃ rawTok, "bar" = slugify rawTok) :=
  ⟨by decide, by decide,
    c2_types_tokens_amended [rowC2w] [] figC2w (by decide) "bar" (by decide)⟩

/-- Claim C8: the flat feature list of every figure record is the
concatenation, over its types in order, of that type's scoped feature list
(missing keys contributing nothing), de-duplicated keeping first occurrences. -/
theorem c8_features_flat (rows : List Row) (wbid : WorksById) (fig : FigRec)
    (h : fig ∈ build_figures rows wbid) :
    fig.featuresFlat =
      dedupFirst (concatMap (fun t => lookupFeat fig.featuresByType t) fig.types) := by
  obtain ⟨r, _, hb⟩ := mem_build_figures h
  rw [buildFigureRow_fields hb, mkFigRec_featuresFlat, mkFigRec_featuresByType, mkFigRec_types]
  rw [featuresFlatLoop_eq, dedupFirstAux_nil]

/-- Claim C8, witness at a concrete multi-type row with overlapping features. -/
theorem c8_witness :
    figC8 ∈ build_figures [rowC8] [] ∧
    figC8.featuresFlat =
      dedupFirst (concatMap (fun t => lookupFeat figC8.featuresByType t) figC8.types) :=
  ⟨by decide, c8_features_flat [rowC8] [] figC8 (by decide)⟩

/-- Claim C6: a figure row whose resolved work id is absent from the lookup
still yields its record in the output, with `workYear` absent, and the
validator emits exactly one missing-work warning line naming that id;
the validator is a pure function of the built lists and alters no record. -/
theorem c6_missing_work_reference (rows : List Row) (wbid : WorksById) (r : Row)
    (fig : FigRec) (wid : String)
    (hr : r ∈ rows) (hbuild : buildFigureRow r wbid = some fig)
    (hwid : fig.workId = some wid) (hmiss : lookupWork wbid wid = none) :
    fig ∈ build_figures rows wbid ∧ fig.workYear = none ∧
    List.count (Warning.figureMissingWork wid)
      (missing_work_warnings (build_figures rows wbid) wbid) = 1 := by
  have hmem : fig ∈ build_figures rows wbid := by
    unfold build_figures
    rw [List.mem_insertionSort]
    exact List.mem_filterMap.mpr ⟨r, hr, hbuild⟩
  have hfig := buildFigureRow_fields hbuild
  have hyear : fig.workYear = none := by
    have hw : figWorkIdOf r = some wid := by
      rw [← mkFigRec_workId r wbid, ← hfig, hwid]
    rw [hfig, mkFigRec_workYear, hw]
    simp [hmiss]
  refine ⟨hmem, hyear, ?_⟩
  unfold missing_work_warnings
  have hinj : Function.Injective Warning.figureMissingWork := by
    intro a b hab
    injection hab
  rw [List.count_map_of_injective _ _ hinj]
  unfold missing_work_ids
  rw [(List.perm_insertionSort _ _).count_eq]
  apply List.nodup_iff_count_eq_one.mp (nodup_dedupFirstAux _ _)
  rw [mem_dedupFirstAux]
  refine ⟨?_, by simp⟩
  rw [List.mem_filter]
  constructor
  · exact List.mem_filterMap.mpr ⟨fig, hmem, hwid⟩
  · simp [hmiss]

/-- Claim C6, witness at a concrete row referencing a work id absent from an
empty lookup. -/
theorem c6_witness :
    figC6 ∈ build_figures [rowC6] [] ∧ figC6.workYear = none ∧
    List.count (Warning.figureMissingWork "w0001")
      (missing_work_warnings (build_figures [rowC6] []) []) = 1 :=
  c6_missing_work_reference [rowC6] [] rowC6 figC6 "w0001" (by decide) (by decide) (by decide)
    (by decide)

/-! ## Stripping lemmas used by claim C4 -/

theorem dropWhile_self (p : Char → Bool) (l : List Char) :
    (l.dropWhile p).dropWhile p = l.dropWhile p := by
  induction l with
  | nil => rfl
  | cons c cs ih =>
    by_cases hp : p c = true
    · simp [List.dropWhile_cons, hp, ih]
    · simp [List.dropWhile_cons, hp]

theorem exists_prefix_dropWhile (p : Char → Bool) (l : List Char) :
    ∃ t, l = t ++ l.dropWhile p := by
  induction l with
  | nil => exact ⟨[], rfl⟩
  | cons c cs ih =>
    by_cases hp : p c = true
    · obtain ⟨t, ht⟩ := ih
      refine ⟨c :: t, ?_⟩
      rw [List.dropWhile_cons, if_pos hp, List.cons_append, ← ht]
    · refine ⟨[], ?_⟩
      rw [List.dropWhile_cons, if_neg hp, List.nil_append]

theorem dropWhile_head_false (p : Char → Bool) :
    ∀ {l : List Char} {x : Char} {xs : List Char},
      List.dropWhile p l = x :: xs → p x = false := by
  intro l
  induction l with
  | nil => intro x xs h; simp at h
  | cons c cs ih =>
    intro x xs h
    by_cases hp : p c = true
    · rw [List.dropWhile_cons, if_pos hp] at h
      exact ih h
    · rw [List.dropWhile_cons, if_neg hp] at h
      injection h with h1 _
      subst h1
      simpa using hp

theorem stripWith_dropWhile (p : Char → Bool) (l : List Char) :
    (stripWith p l).dropWhile p = stripWith p l := by
  unfold stripWith dropWhileEnd
  rcases hBr : ((l.dropWhile p).reverse.dropWhile p).reverse with _ | ⟨y, ys⟩
  · rfl
  · obtain ⟨t, ht⟩ := exists_prefix_dropWhile p (l.dropWhile p).reverse
    have hA2 : l.dropWhile p = ((l.dropWhile p).reverse.dropWhile p).reverse ++ t.reverse := by
      have h := congrArg List.reverse ht
      rw [List.reverse_reverse, List.reverse_append] at h
      exact h
    rw [hBr] at hA2
    rw [List.cons_append] at hA2
    have hpy : p y = false := dropWhile_head_false p hA2
    rw [List.dropWhile_cons, if_neg (by simp [hpy])]

theorem stripWith_idem (p : Char → Bool) (l : List Char) :
    stripWith p (stripWith p l) = stripWith p l := by
  have h1 := stripWith_dropWhile p l
  show dropWhileEnd p ((stripWith p l).dropWhile p) = stripWith p l
  rw [h1]
  show ((stripWith p l).reverse.dropWhile p).reverse = stripWith p l
  have h2 : (stripWith p l).reverse = (l.dropWhile p).reverse.dropWhile p := by
    unfold stripWith dropWhileEnd
    rw [List.reverse_reverse]
  rw [h2, dropWhile_self, ← h2, List.reverse_reverse]

theorem split_csvish_token {raw t : String} (h : t ∈ split_csvish raw) :
    t ≠ "" ∧ stripList t.data = t.data := by
  unfold split_csvish at h
  by_cases h0 : clean_cell raw = ""
  · rw [if_pos h0] at h
    simp at h
  · rw [if_neg h0] at h
    simp only [List.mem_map, List.mem_filter] at h
    obtain ⟨m, ⟨hm1, hm2⟩, rfl⟩ := h
    obtain ⟨chunk, _, rfl⟩ := hm1
    constructor
    · intro he
      have hnil : stripList chunk = [] := congrArg String.data he
      rw [hnil] at hm2
      simp at hm2
    · show stripList (stripList chunk) = stripList chunk
      exact stripWith_idem _ _

theorem normalize_color_token_cases (s : String) :
    normalize_color_token s = "gray" ∨ normalize_color_token s = "only-black" ∨
    (normalize_color_token s).data.length = (stripList s.data).length := by
  unfold normalize_color_token clean_cell pystrip lowerStr
  dsimp only
  split_ifs
  all_goals first
    | (left; rfl)
    | (right; left; rfl)
    | (right; right; simp [List.length_map])

theorem normColor_ne_empty {raw t : String} (h : t ∈ split_csvish raw) :
    normalize_color_token t ≠ "" := by
  obtain ⟨hne, hstrip⟩ := split_csvish_token h
  rcases normalize_color_token_cases t with hc | hc | hc
  · rw [hc]; decide
  · rw [hc]; decide
  · intro he
    rw [he, hstrip] at hc
    have h0 : t.data.length = 0 := hc.symm
    rw [List.length_eq_zero] at h0
    have h1 : t.toList = "".toList := h0
    exact hne (String.toList_inj.mp h1)

/-- Claim C4: color-list parsing behaves exactly as the specification sentence
states, including on its two quoted examples. -/
theorem c4_parse_colors_confirmed :
    (∀ raw, parse_colors raw = parse_colors_spec raw) ∧
    parse_colors "Black" = ([], true) ∧
    parse_colors "Red, black, Blue" = (["red", "blue"], false) := by
  refine ⟨?_, by decide, by decide⟩
  intro raw
  simp only [parse_colors, parse_colors_spec]
  by_cases hob : "only-black" ∈ (split_csvish raw).map normalize_color_token
  · rw [if_pos hob, if_pos hob]
  · rw [if_neg hob, if_neg hob]
    have hfeq : ((split_csvish raw).map normalize_color_token).filter
        (fun t => t ≠ "" ∧ t ≠ "black") =
        ((split_csvish raw).map normalize_color_token).filter (fun t => t ≠ "black") := by
      apply List.filter_congr
      intro t ht
      obtain ⟨tok, htok, rfl⟩ := List.mem_map.mp ht
      have hne := normColor_ne_empty htok
      simp [hne]
    rw [hfeq]
    by_cases hcond : ((split_csvish raw).map normalize_color_token).filter
        (fun t => t ≠ "black") = [] ∧ (split_csvish raw).map normalize_color_token ≠ []
    · rw [if_pos hcond, if_pos hcond]
    · rw [if_neg hcond, if_neg hcond, dedupFirstAux_nil]
